import Mathlib

/-!
Verification of the composite parameter scheduler
(`classy_vision/optim/param_scheduler/composite_scheduler.py`).

The Python floats are modelled as exact rationals (`ℚ`); list indexing
`xs[i]` is modelled with `List.getD` (every claim below constrains the
index to be in bounds, where the two coincide with Python's semantics).
Sub-schedulers are opaque progress-to-value functions `ℚ → ℚ`, as the
spec's external scheduler capability prescribes.
-/

/-- Modelled from the spec: the update-cadence enum `UpdateInterval`
({STEP, EPOCH}) lives in the package `__init__`, which is not part of the
given source; the spec describes it as "an enum value {STEP, EPOCH} stored
alongside the segment list". -/
inductive UpdateInterval where
  | STEP
  | EPOCH
deriving DecidableEq

/-- The nested enum `CompositeParamScheduler.IntervalScaling` from the
source (`RESCALED` and `FIXED`). -/
inductive IntervalScaling where
  | RESCALED
  | FIXED
deriving DecidableEq

/-- Modelled from the spec: the tie-break constant `WHERE_EPSILON` is an
attribute of the base class `ClassyParamScheduler`, which is not part of
the given source; the spec describes it only as "a small fixed epsilon
(tie-break constant)". We fix the concrete small positive value 1e-6. -/
def WHERE_EPSILON : ℚ := 1 / 1000000

/-- The state of a `CompositeParamScheduler` instance as stored by
`__init__`: sub-schedulers, segment lengths, update cadence and
per-segment scaling modes. -/
structure CompositeParamScheduler where
  schedulers : List (ℚ → ℚ)
  lengths : List ℚ
  update_interval : UpdateInterval
  interval_scaling : List IntervalScaling

/-- `prefixSum L k` is the sum of the first `k` entries of `L`: the
cumulative segment boundary before segment `k` starts. -/
def prefixSum (L : List ℚ) (k : ℕ) : ℚ := (L.take k).sum

/-- The selection loop of `__call__`:

    while (where + self.WHERE_EPSILON) > running_total and i < len(self._schedulers) - 1:
        i += 1
        running_total += self._lengths[i]

`fuel` is `len(schedulers) - 1 - i`, so `fuel > 0` is exactly the loop
guard `i < len(schedulers) - 1`; the returned pair is `(i, running_total)`
at loop exit. -/
def selectAux (L : List ℚ) (eps w : ℚ) : ℕ → ℕ → ℚ → ℕ × ℚ
  | 0, i, rt => (i, rt)
  | fuel + 1, i, rt =>
    if rt < w + eps then
      selectAux L eps w fuel (i + 1) (rt + L.getD (i + 1) 0)
    else (i, rt)

/-- Lines 129-135 of `__call__`: starting from `i = 0` and
`running_total = self._lengths[0]`, run the selection loop. -/
def CompositeParamScheduler.select (s : CompositeParamScheduler) (w : ℚ) : ℕ × ℚ :=
  selectAux s.lengths WHERE_EPSILON w (s.schedulers.length - 1) 0 (s.lengths.getD 0 0)

/-- The body of `__call__`: select the segment for `where`, rescale the
progress when the segment's interval scale is `RESCALED`, and delegate to
the selected sub-scheduler. -/
def CompositeParamScheduler.call (s : CompositeParamScheduler) (w : ℚ) : ℚ :=
  let r := s.select w
  let scheduler := s.schedulers.getD r.1 (fun _ => 0)
  let interval_scale := s.interval_scaling.getD r.1 IntervalScaling.RESCALED
  let scheduler_where :=
    if interval_scale = IntervalScaling.RESCALED then
      (w - (r.2 - s.lengths.getD r.1 0)) / s.lengths.getD r.1 0
    else w
  scheduler scheduler_where

/-- State-passing embedding of `__call__`: the object state `st` is
threaded explicitly through the statement sequence of the method body;
every use of `self` in the source is a field read of `st`, and the body
contains no field write, so the state flows through to the result. -/
def CompositeParamScheduler.callST (s : CompositeParamScheduler) (w : ℚ) :
    ℚ × CompositeParamScheduler :=
  let st := s
  let r := selectAux st.lengths WHERE_EPSILON w (st.schedulers.length - 1) 0
    (st.lengths.getD 0 0)
  let scheduler := st.schedulers.getD r.1 (fun _ => 0)
  let interval_scale := st.interval_scaling.getD r.1 IntervalScaling.RESCALED
  let scheduler_where :=
    if interval_scale = IntervalScaling.RESCALED then
      (w - (r.2 - st.lengths.getD r.1 0)) / st.lengths.getD r.1 0
    else w
  (scheduler scheduler_where, st)

/-- A sub-scheduler configuration dictionary, as consumed by
`from_config`: an opaque payload (the scheduler-specific keys, irrelevant
to the composite) together with an optional `num_epochs` key, which
`from_config` may overwrite. -/
structure SchedConfig where
  payload : ℕ
  num_epochs : Option ℚ
deriving DecidableEq

/-- The configuration dictionary consumed by
`CompositeParamScheduler.from_config`, at the typed field granularity the
spec's §6 gives it: required `schedulers` and `lengths` lists, optional
`update_interval` (already one of step/epoch), optional `interval_scaling`
(already a list of valid modes) and optional `num_epochs`. The source's
asserts on key presence and on the string values hold by construction in
this typed form. -/
structure CompositeConfig where
  schedulers : List SchedConfig
  lengths : List ℚ
  update_interval : Option UpdateInterval
  interval_scaling : Option (List IntervalScaling)
  num_epochs : Option ℚ
deriving DecidableEq

/-- The construction-time error of the spec's §7 (the source raises it
through failed asserts). -/
inductive ConfigurationError where
  | mk
deriving DecidableEq

/-- The tail of `from_config` once all validation has passed:
propagate `num_epochs` into every sub-scheduler configuration (creating
the rewritten `config["schedulers"]`), then build the instance. Returns
the post-state of the caller's configuration dictionary together with the
constructed scheduler. -/
def fromConfigFinish (build : SchedConfig → ℚ → ℚ) (config : CompositeConfig)
    (lengths1 : List ℚ) (ui : UpdateInterval) (iscale : List IntervalScaling) :
    CompositeConfig × CompositeParamScheduler :=
  let schedulers1 :=
    match config.num_epochs with
    | some e => config.schedulers.map (fun sc => { sc with num_epochs := some e })
    | none => config.schedulers
  ({ config with lengths := lengths1, schedulers := schedulers1 },
   { schedulers := schedulers1.map build,
     lengths := lengths1,
     update_interval := ui,
     interval_scaling := iscale })

/-- `CompositeParamScheduler.from_config`, with the external factory
`build_param_scheduler` passed in as `build` (it is an external
collaborator per the spec). The guards are the source's asserts, in
source order; the success value carries the post-state of the caller's
configuration dictionary (the source mutates `config["lengths"]` and
`config["schedulers"]` in place) together with the built instance. -/
def from_config (build : SchedConfig → ℚ → ℚ) (config : CompositeConfig) :
    Except ConfigurationError (CompositeConfig × CompositeParamScheduler) :=
  if config.schedulers.length = config.lengths.length then
    if 0 < config.schedulers.length then
      if |config.lengths.sum - 1| < 1 / 1000 then
        let lengths1 :=
          if config.lengths.sum = 1 then config.lengths
          else config.lengths.dropLast ++ [1 - config.lengths.dropLast.sum]
        let ui :=
          match config.update_interval with
          | none => UpdateInterval.STEP
          | some u => u
        match config.interval_scaling with
        | some l =>
          if config.schedulers.length = l.length then
            Except.ok (fromConfigFinish build config lengths1 ui l)
          else Except.error ConfigurationError.mk
        | none =>
          Except.ok (fromConfigFinish build config lengths1 ui
            (List.replicate config.schedulers.length IntervalScaling.RESCALED))
      else Except.error ConfigurationError.mk
    else Except.error ConfigurationError.mk
  else Except.error ConfigurationError.mk

lemma WHERE_EPSILON_pos : 0 < WHERE_EPSILON := by norm_num [WHERE_EPSILON]

lemma prefixSum_zero (L : List ℚ) : prefixSum L 0 = 0 := rfl

lemma prefixSum_one (L : List ℚ) : prefixSum L 1 = L.getD 0 0 := by
  cases L <;> simp [prefixSum]

lemma prefixSum_succ (L : List ℚ) (k : ℕ) (h : k < L.length) :
    prefixSum L (k + 1) = prefixSum L k + L.getD k 0 := by
  induction L generalizing k with
  | nil => simp at h
  | cons a t ih =>
    cases k with
    | zero => simp [prefixSum]
    | succ k =>
      have hk : k < t.length := by simpa using h
      have := ih k hk
      simp only [prefixSum, List.take_succ_cons, List.sum_cons, List.getD_cons_succ] at *
      linarith

lemma prefixSum_le_sum (L : List ℚ) (h : ∀ l ∈ L, 0 ≤ l) (k : ℕ) :
    prefixSum L k ≤ L.sum := by
  have hsplit := List.sum_take_add_sum_drop L k
  have hdrop : 0 ≤ (L.drop k).sum :=
    List.sum_nonneg (fun x hx => h x (List.drop_subset k L hx))
  unfold prefixSum
  linarith

lemma prefixSum_mono (L : List ℚ) (h : ∀ l ∈ L, 0 ≤ l) {j k : ℕ} (hjk : j ≤ k) :
    prefixSum L j ≤ prefixSum L k := by
  have htake : L.take j = (L.take k).take j := by
    rw [List.take_take, Nat.min_eq_left hjk]
  have hmem : ∀ l ∈ L.take k, 0 ≤ l := fun x hx => h x (List.take_subset k L hx)
  have := prefixSum_le_sum (L.take k) hmem j
  unfold prefixSum at *
  rw [htake]
  exact this

lemma selectAux_fst_le (L : List ℚ) (eps w : ℚ) :
    ∀ fuel i rt, (selectAux L eps w fuel i rt).1 ≤ i + fuel := by
  intro fuel
  induction fuel with
  | zero => intro i rt; simp [selectAux]
  | succ f ih =>
    intro i rt
    simp only [selectAux]
    split
    · have := ih (i + 1) (rt + L.getD (i + 1) 0)
      omega
    · simp

lemma selectAux_snd (L : List ℚ) (eps w : ℚ) :
    ∀ fuel i rt, rt = prefixSum L (i + 1) → i + 1 + fuel ≤ L.length →
      (selectAux L eps w fuel i rt).2 =
        prefixSum L ((selectAux L eps w fuel i rt).1 + 1) := by
  intro fuel
  induction fuel with
  | zero => intro i rt hrt _; simpa [selectAux] using hrt
  | succ f ih =>
    intro i rt hrt hlen
    simp only [selectAux]
    split
    · apply ih (i + 1)
      · rw [hrt, prefixSum_succ L (i + 1) (by omega)]
      · omega
    · simpa [selectAux] using hrt

lemma selectAux_eq_target (L : List ℚ) (eps w : ℚ) :
    ∀ fuel i rt t, rt = prefixSum L (i + 1) →
      i ≤ t → t ≤ i + fuel →
      (∀ j, i ≤ j → j < t → prefixSum L (j + 1) < w + eps) →
      (t = i + fuel ∨ w + eps ≤ prefixSum L (t + 1)) →
      i + 1 + fuel ≤ L.length →
      (selectAux L eps w fuel i rt).1 = t := by
  intro fuel
  induction fuel with
  | zero =>
    intro i rt t hrt hit hti _ _ _
    have : t = i := by omega
    simp [selectAux, this]
  | succ f ih =>
    intro i rt t hrt hit hti hclimb hstop hlen
    by_cases hts : t = i
    · subst hts
      have hstop' : w + eps ≤ prefixSum L (t + 1) := by
        rcases hstop with h | h
        · omega
        · exact h
      have hcond : ¬ rt < w + eps := by rw [hrt]; linarith
      simp [selectAux, hcond]
    · have hcond : rt < w + eps := by
        rw [hrt]; exact hclimb i le_rfl (by omega)
      simp only [selectAux, if_pos hcond]
      apply ih (i + 1) _ t
      · rw [hrt, prefixSum_succ L (i + 1) (by omega)]
      · omega
      · omega
      · intro j hj hjt; exact hclimb j (by omega) hjt
      · rcases hstop with h | h
        · left; omega
        · right; exact h
      · omega

lemma select_fst_le (s : CompositeParamScheduler) (w : ℚ) :
    (s.select w).1 ≤ s.schedulers.length - 1 := by
  have := selectAux_fst_le s.lengths WHERE_EPSILON w (s.schedulers.length - 1) 0
    (s.lengths.getD 0 0)
  simpa [CompositeParamScheduler.select] using this

lemma select_fst_lt (s : CompositeParamScheduler)
    (hne : s.schedulers ≠ []) (w : ℚ) :
    (s.select w).1 < s.schedulers.length := by
  have h1 := select_fst_le s w
  have h2 : 0 < s.schedulers.length := List.length_pos.mpr hne
  omega

lemma select_snd_eq (s : CompositeParamScheduler)
    (hlen : s.lengths.length = s.schedulers.length)
    (hne : s.schedulers ≠ []) (w : ℚ) :
    (s.select w).2 = prefixSum s.lengths ((s.select w).1 + 1) := by
  have h2 : 0 < s.schedulers.length := List.length_pos.mpr hne
  have := selectAux_snd s.lengths WHERE_EPSILON w (s.schedulers.length - 1) 0
    (s.lengths.getD 0 0) (by rw [prefixSum_one]) (by omega)
  simpa [CompositeParamScheduler.select] using this

lemma select_eq_target (s : CompositeParamScheduler)
    (hlen : s.lengths.length = s.schedulers.length)
    (hne : s.schedulers ≠ []) (w : ℚ) (t : ℕ)
    (hti : t ≤ s.schedulers.length - 1)
    (hclimb : ∀ j, j < t → prefixSum s.lengths (j + 1) < w + WHERE_EPSILON)
    (hstop : t = s.schedulers.length - 1 ∨
      w + WHERE_EPSILON ≤ prefixSum s.lengths (t + 1)) :
    (s.select w).1 = t := by
  have h2 : 0 < s.schedulers.length := List.length_pos.mpr hne
  exact selectAux_eq_target s.lengths WHERE_EPSILON w (s.schedulers.length - 1) 0
    (s.lengths.getD 0 0) t (by rw [prefixSum_one]) (Nat.zero_le t) (by omega)
    (fun j _ hj => hclimb j hj)
    (by
      rcases hstop with h | h
      · left; omega
      · right; exact h)
    (by omega)

lemma getD_mem_of_lt (L : List ℚ) (k : ℕ) (h : k < L.length) : L.getD k 0 ∈ L := by
  induction L generalizing k with
  | nil => simp at h
  | cons a t ih =>
    cases k with
    | zero => simp
    | succ k =>
      simp only [List.getD_cons_succ]
      exact List.mem_cons_of_mem a (ih k (by simpa using h))

/-- Scenario C of the spec: three fixed-mode segments of lengths
0.33, 0.33, 0.34 with three distinct constant sub-schedulers. -/
def exC : CompositeParamScheduler :=
  ⟨[fun _ => 0, fun _ => 1, fun _ => 2], [33/100, 33/100, 34/100],
   UpdateInterval.STEP,
   [IntervalScaling.FIXED, IntervalScaling.FIXED, IntervalScaling.FIXED]⟩

/-- A validly constructed composite whose middle segment is shorter than
the tie-break epsilon: lengths are positive and sum to exactly 1. -/
def exSkip : CompositeParamScheduler :=
  ⟨[fun _ => 0, fun _ => 1, fun _ => 2], [1/2, 1/2000000, 999999/2000000],
   UpdateInterval.STEP,
   [IntervalScaling.FIXED, IntervalScaling.FIXED, IntervalScaling.FIXED]⟩

/-- Scenario B of the spec: lengths [0.5, 0.5], both segments fixed; the
second sub-scheduler is the identity, so the composite's result reveals
the progress value the sub-scheduler received. -/
def exB : CompositeParamScheduler :=
  ⟨[fun _ => 0, fun x => x], [1/2, 1/2], UpdateInterval.STEP,
   [IntervalScaling.FIXED, IntervalScaling.FIXED]⟩

/-- Scenario A shape: two rescaled segments of lengths 0.3 and 0.7; the
second sub-scheduler is the identity, so the composite's result reveals
the local progress it received. -/
def sA : CompositeParamScheduler :=
  ⟨[fun _ => 42/100, fun x => x], [3/10, 7/10], UpdateInterval.STEP,
   [IntervalScaling.RESCALED, IntervalScaling.RESCALED]⟩

/-- A validly constructed composite whose first segment is shorter than
the tie-break epsilon. -/
def exTiny : CompositeParamScheduler :=
  ⟨[fun _ => 0, fun _ => 1], [1/2000000, 1999999/2000000], UpdateInterval.STEP,
   [IntervalScaling.FIXED, IntervalScaling.FIXED]⟩

/-- A validly constructed composite whose first segment is shorter than
the tie-break epsilon, used at a negative progress value. -/
def exNeg : CompositeParamScheduler :=
  ⟨[fun _ => 0, fun _ => 1], [1/4000000, 3999999/4000000], UpdateInterval.STEP,
   [IntervalScaling.FIXED, IntervalScaling.FIXED]⟩

/-- A one-segment composite with step cadence. -/
def exStep : CompositeParamScheduler :=
  ⟨[fun x => x], [1], UpdateInterval.STEP, [IntervalScaling.RESCALED]⟩

/-- The same composite as `exStep` except for epoch cadence. -/
def exEpoch : CompositeParamScheduler :=
  ⟨[fun x => x], [1], UpdateInterval.EPOCH, [IntervalScaling.RESCALED]⟩

/-- C1 (amended: each segment length must be at least the tie-break
epsilon): segment selection is right-open — a progress value exactly equal
to the cumulative boundary after segment k is assigned to segment k+1 —
and every progress value at or beyond the start of the last segment is
absorbed by the last segment. -/
theorem right_open_boundaries (s : CompositeParamScheduler)
    (hlen : s.lengths.length = s.schedulers.length)
    (hne : s.schedulers ≠ [])
    (heps : ∀ l ∈ s.lengths, WHERE_EPSILON ≤ l) :
    (∀ k, k + 1 < s.schedulers.length →
      (s.select (prefixSum s.lengths (k + 1))).1 = k + 1) ∧
    (∀ w, prefixSum s.lengths (s.schedulers.length - 1) ≤ w →
      (s.select w).1 = s.schedulers.length - 1) := by
  have hnn : ∀ l ∈ s.lengths, 0 ≤ l :=
    fun l hl => le_trans WHERE_EPSILON_pos.le (heps l hl)
  constructor
  · intro k hk
    apply select_eq_target s hlen hne _ (k + 1) (by omega)
    · intro j hj
      have hle : prefixSum s.lengths (j + 1) ≤ prefixSum s.lengths (k + 1) :=
        prefixSum_mono s.lengths hnn (by omega)
      have := WHERE_EPSILON_pos
      linarith
    · right
      have hk1 : k + 1 < s.lengths.length := by omega
      rw [prefixSum_succ s.lengths (k + 1) hk1]
      have := heps _ (getD_mem_of_lt s.lengths (k + 1) hk1)
      linarith
  · intro w hw
    apply select_eq_target s hlen hne w _ le_rfl
    · intro j hj
      have hle : prefixSum s.lengths (j + 1) ≤
          prefixSum s.lengths (s.schedulers.length - 1) :=
        prefixSum_mono s.lengths hnn (by omega)
      have := WHERE_EPSILON_pos
      linarith
    · left; rfl

/-- Witness for C1: scenario C — lengths [0.33, 0.33, 0.34], evaluating
at exactly 0.33 (the cumulative boundary after segment 0) selects
segment 1. -/
theorem right_open_boundaries_witness : (exC.select (33/100)).1 = 1 := by
  have h := right_open_boundaries exC rfl (by simp [exC])
    (by
      intro l hl
      simp only [exC, List.mem_cons, List.not_mem_nil, or_false] at hl
      rcases hl with rfl | rfl | rfl <;> norm_num [WHERE_EPSILON])
  have h0 := h.1 0 (by simp [exC])
  have hps : prefixSum exC.lengths 1 = 33/100 := by norm_num [exC, prefixSum]
  rwa [hps] at h0

/-- Counterexample for C1 as stated: `exSkip` is validly constructed
(three positive lengths summing to exactly 1, lists aligned), the upper
boundary of segment 0 is 1/2, yet evaluating at exactly 1/2 selects
segment 2, not segment 1 — the epsilon tie-break also skips over the
tiny middle segment. -/
theorem right_open_boundaries_counterexample :
    exSkip.lengths.length = exSkip.schedulers.length ∧
    exSkip.interval_scaling.length = exSkip.schedulers.length ∧
    (∀ l ∈ exSkip.lengths, 0 < l) ∧
    exSkip.lengths.sum = 1 ∧
    prefixSum exSkip.lengths 1 = 1/2 ∧
    (exSkip.select (1/2)).1 = 2 := by
  refine ⟨rfl, rfl, ?_, by norm_num [exSkip], by norm_num [exSkip, prefixSum], ?_⟩
  · intro l hl
    simp only [exSkip, List.mem_cons, List.not_mem_nil, or_false] at hl
    rcases hl with rfl | rfl | rfl <;> norm_num
  · norm_num [exSkip, CompositeParamScheduler.select, selectAux, WHERE_EPSILON]

/-- C4: whenever evaluation selects a segment `i` whose scaling mode is
RESCALED, the composite returns the selected sub-scheduler's value at
`(where - segment_start) / length[i]`, where `segment_start` is the sum
of the lengths of segments 0..i-1; at `where = segment_start` the local
progress is exactly 0 and the sub-scheduler's result is returned
unchanged. -/
theorem rescaled_local_where (s : CompositeParamScheduler) (w : ℚ) (i : ℕ)
    (hlen : s.lengths.length = s.schedulers.length)
    (hne : s.schedulers ≠ [])
    (hsel : (s.select w).1 = i)
    (hmode : s.interval_scaling.getD i IntervalScaling.RESCALED =
      IntervalScaling.RESCALED) :
    s.call w = (s.schedulers.getD i (fun _ => 0))
      ((w - prefixSum s.lengths i) / s.lengths.getD i 0) ∧
    (w = prefixSum s.lengths i →
      s.call w = (s.schedulers.getD i (fun _ => 0)) 0) := by
  have hsnd := select_snd_eq s hlen hne w
  have hi : i < s.lengths.length := by
    have := select_fst_lt s hne w
    omega
  have hstart : (s.select w).2 - s.lengths.getD i 0 = prefixSum s.lengths i := by
    rw [hsnd, hsel, prefixSum_succ s.lengths i hi]
    ring
  have hcall : s.call w = (s.schedulers.getD i (fun _ => 0))
      ((w - prefixSum s.lengths i) / s.lengths.getD i 0) := by
    simp only [CompositeParamScheduler.call]
    rw [hsel, hmode, if_pos rfl, hstart]
  refine ⟨hcall, fun hw => ?_⟩
  rw [hcall, hw]
  simp

/-- Witness for C4: in `sA` the second segment (RESCALED, start 0.3,
length 0.7, identity sub-scheduler) is selected at `where = 0.3`; the
composite returns the identity applied to local progress 0, i.e. 0. -/
theorem rescaled_local_where_witness : sA.call (3/10) = 0 := by
  have h := rescaled_local_where sA (3/10) 1 rfl (by simp [sA])
    (by norm_num [sA, CompositeParamScheduler.select, selectAux, WHERE_EPSILON])
    rfl
  have h2 := h.2 (by norm_num [sA, prefixSum])
  simpa [sA] using h2

/-- C5: whenever evaluation selects a segment `i` whose scaling mode is
FIXED, the selected sub-scheduler receives the global progress value
`where` unchanged. -/
theorem fixed_mode_identity (s : CompositeParamScheduler) (w : ℚ) (i : ℕ)
    (hsel : (s.select w).1 = i)
    (hmode : s.interval_scaling.getD i IntervalScaling.RESCALED =
      IntervalScaling.FIXED) :
    s.call w = (s.schedulers.getD i (fun _ => 0)) w := by
  simp only [CompositeParamScheduler.call]
  rw [hsel, hmode]
  simp

/-- Witness for C5: scenario B — lengths [0.5, 0.5], both modes fixed;
at `where = 0.6` the second (identity) sub-scheduler is selected and the
composite returns 0.6, so the sub-scheduler received 0.6 unchanged, not
the rescaled 0.2. -/
theorem fixed_mode_identity_witness : exB.call (3/5) = 3/5 := by
  have h := fixed_mode_identity exB (3/5) 1
    (by norm_num [exB, CompositeParamScheduler.select, selectAux, WHERE_EPSILON])
    rfl
  simpa [exB] using h

/-- C6 (amended: every length must also be at least the tie-break epsilon
WHERE_EPSILON, not merely positive): evaluating at `where = 0` selects
segment 0 and delegates to the first sub-scheduler. -/
theorem first_segment_at_zero (s : CompositeParamScheduler)
    (hlen : s.lengths.length = s.schedulers.length)
    (hne : s.schedulers ≠ [])
    (heps : ∀ l ∈ s.lengths, WHERE_EPSILON ≤ l) :
    (s.select 0).1 = 0 ∧
    ∃ lw, s.call 0 = (s.schedulers.getD 0 (fun _ => 0)) lw := by
  have hpos : 0 < s.schedulers.length := List.length_pos.mpr hne
  have h0 : (s.select 0).1 = 0 := by
    apply select_eq_target s hlen hne 0 0 (by omega)
    · intro j hj; omega
    · right
      rw [prefixSum_one]
      have := heps _ (getD_mem_of_lt s.lengths 0 (by omega))
      linarith
  refine ⟨h0, ?_⟩
  simp only [CompositeParamScheduler.call]
  rw [h0]
  exact ⟨_, rfl⟩

/-- Witness for C6 (amended): on `exC` (all lengths well above the
epsilon) evaluation at 0 selects segment 0 and delegates to the first
sub-scheduler. -/
theorem first_segment_at_zero_witness :
    (exC.select 0).1 = 0 ∧
    ∃ lw, exC.call 0 = (exC.schedulers.getD 0 (fun _ => 0)) lw := by
  apply first_segment_at_zero exC rfl (by simp [exC])
  intro l hl
  simp only [exC, List.mem_cons, List.not_mem_nil, or_false] at hl
  rcases hl with rfl | rfl | rfl <;> norm_num [WHERE_EPSILON]

/-- Counterexample for C6 as stated: `exTiny` is validly constructed
(two positive lengths summing to exactly 1, lists aligned), yet
evaluation at `where = 0` selects segment 1, because the first length
(5e-7) is smaller than the tie-break epsilon. -/
theorem first_segment_at_zero_counterexample :
    exTiny.lengths.length = exTiny.schedulers.length ∧
    exTiny.interval_scaling.length = exTiny.schedulers.length ∧
    (∀ l ∈ exTiny.lengths, 0 < l) ∧
    exTiny.lengths.sum = 1 ∧
    (exTiny.select 0).1 = 1 := by
  refine ⟨rfl, rfl, ?_, by norm_num [exTiny], ?_⟩
  · intro l hl
    simp only [exTiny, List.mem_cons, List.not_mem_nil, or_false] at hl
    rcases hl with rfl | rfl <;> norm_num
  · norm_num [exTiny, CompositeParamScheduler.select, selectAux, WHERE_EPSILON]

/-- C7: evaluation is pure — the state-passing embedding of `__call__`
returns the composite with all four stored fields unchanged, its value
agrees with the direct evaluation function, and re-evaluating on the
returned state yields the same value. -/
theorem call_pure (s : CompositeParamScheduler) (w : ℚ) :
    (s.callST w).2.schedulers = s.schedulers ∧
    (s.callST w).2.lengths = s.lengths ∧
    (s.callST w).2.interval_scaling = s.interval_scaling ∧
    (s.callST w).2.update_interval = s.update_interval ∧
    (s.callST w).1 = s.call w ∧
    ((s.callST w).2.callST w).1 = (s.callST w).1 :=
  ⟨rfl, rfl, rfl, rfl, rfl, rfl⟩

/-- C8: the stored update cadence has no influence on evaluation — two
composites identical except for `update_interval` evaluate equally at
every progress value. -/
theorem update_interval_irrelevant (s1 s2 : CompositeParamScheduler) (w : ℚ)
    (hs : s1.schedulers = s2.schedulers)
    (hl : s1.lengths = s2.lengths)
    (hi : s1.interval_scaling = s2.interval_scaling) :
    s1.call w = s2.call w := by
  cases s1
  cases s2
  dsimp only at hs hl hi
  subst hs
  subst hl
  subst hi
  rfl

/-- Witness for C8: the step-cadence and epoch-cadence variants of the
same one-segment composite agree at `where = 1/3`. -/
theorem update_interval_irrelevant_witness :
    exStep.call (1/3) = exEpoch.call (1/3) :=
  update_interval_irrelevant exStep exEpoch (1/3) rfl rfl rfl

/-- C9 (amended: the clause about negative progress additionally needs
the first length to be at least the tie-break epsilon): for any composite
with aligned lists, at least one segment and positive lengths, selection
always lands strictly inside all three lists (so evaluation is total and
in-bounds for every rational `where`); any `where` at or beyond the final
cumulative boundary selects the last segment; and any negative `where`
selects the first segment provided the first length is at least
WHERE_EPSILON. -/
theorem select_total (s : CompositeParamScheduler)
    (hlen : s.lengths.length = s.schedulers.length)
    (hscale : s.interval_scaling.length = s.schedulers.length)
    (hne : s.schedulers ≠ [])
    (hpos : ∀ l ∈ s.lengths, 0 < l) :
    (∀ w, (s.select w).1 < s.schedulers.length ∧
      (s.select w).1 < s.lengths.length ∧
      (s.select w).1 < s.interval_scaling.length) ∧
    (∀ w, s.lengths.sum ≤ w →
      (s.select w).1 = s.schedulers.length - 1) ∧
    (∀ w, w < 0 → WHERE_EPSILON ≤ s.lengths.getD 0 0 →
      (s.select w).1 = 0) := by
  have hnn : ∀ l ∈ s.lengths, 0 ≤ l := fun l hl => (hpos l hl).le
  refine ⟨fun w => ?_, fun w hw => ?_, fun w hw heps => ?_⟩
  · have := select_fst_lt s hne w
    omega
  · apply select_eq_target s hlen hne w _ le_rfl
    · intro j hj
      have hle : prefixSum s.lengths (j + 1) ≤ s.lengths.sum :=
        prefixSum_le_sum s.lengths hnn (j + 1)
      have := WHERE_EPSILON_pos
      linarith
    · left; rfl
  · apply select_eq_target s hlen hne w 0 (by omega)
    · intro j hj; omega
    · right
      rw [prefixSum_one]
      linarith

/-- Witness for C9 (amended): on `exC`, selection at 2 (beyond the final
boundary 1) gives the last segment, and selection at -1 gives the first
segment. -/
theorem select_total_witness :
    (exC.select 2).1 = exC.schedulers.length - 1 ∧
    (exC.select (-1)).1 = 0 := by
  have hpos : ∀ l ∈ exC.lengths, 0 < l := by
    intro l hl
    simp only [exC, List.mem_cons, List.not_mem_nil, or_false] at hl
    rcases hl with rfl | rfl | rfl <;> norm_num
  have h := select_total exC rfl rfl (by simp [exC]) hpos
  exact ⟨h.2.1 2 (by norm_num [exC]), h.2.2 (-1) (by norm_num)
    (by norm_num [exC, WHERE_EPSILON])⟩

/-- Counterexample for C9 as stated: `exNeg` is validly constructed (two
positive lengths summing to exactly 1, lists aligned), yet the negative
progress value -5e-7 selects segment 1, not segment 0, because the first
length (2.5e-7) is smaller than the tie-break epsilon. -/
theorem select_total_counterexample :
    exNeg.lengths.length = exNeg.schedulers.length ∧
    exNeg.interval_scaling.length = exNeg.schedulers.length ∧
    (∀ l ∈ exNeg.lengths, 0 < l) ∧
    exNeg.lengths.sum = 1 ∧
    (-1/2000000 : ℚ) < 0 ∧
    (exNeg.select (-1/2000000)).1 = 1 := by
  refine ⟨rfl, rfl, ?_, by norm_num [exNeg], by norm_num, ?_⟩
  · intro l hl
    simp only [exNeg, List.mem_cons, List.not_mem_nil, or_false] at hl
    rcases hl with rfl | rfl <;> norm_num
  · norm_num [exNeg, CompositeParamScheduler.select, selectAux, WHERE_EPSILON]

/-- A trivial external scheduler factory for concrete instantiations. -/
def build0 : SchedConfig → ℚ → ℚ := fun _ _ => 0

/-- Scenario D of the spec: two schedulers with lengths [0.3, 0.7001]
(sum 1.0001, within tolerance). -/
def cfgD : CompositeConfig := ⟨[⟨0, none⟩, ⟨1, none⟩], [3/10, 7001/10000], none, none, none⟩

/-- A configuration with an inexact length sum and a `num_epochs` key,
whose sub-scheduler configurations carry their own `num_epochs` values. -/
def cfgMut : CompositeConfig :=
  ⟨[⟨0, none⟩, ⟨1, some 5⟩], [3/10, 7001/10000], none, none, some 8⟩

lemma from_config_ok_aux (build : SchedConfig → ℚ → ℚ) (config : CompositeConfig)
    (h1 : config.schedulers.length = config.lengths.length)
    (h2 : config.schedulers ≠ [])
    (h3 : |config.lengths.sum - 1| < 1/1000)
    (h4 : ∀ l, config.interval_scaling = some l →
      config.schedulers.length = l.length) :
    from_config build config = Except.ok (fromConfigFinish build config
      (if config.lengths.sum = 1 then config.lengths
        else config.lengths.dropLast ++ [1 - config.lengths.dropLast.sum])
      (match config.update_interval with
        | none => UpdateInterval.STEP
        | some u => u)
      (match config.interval_scaling with
        | some l => l
        | none => List.replicate config.schedulers.length
            IntervalScaling.RESCALED)) := by
  have h2' : 0 < config.schedulers.length := List.length_pos.mpr h2
  rcases hic : config.interval_scaling with _ | l
  · simp only [from_config, hic, if_pos h1, if_pos h2', if_pos h3]
  · simp only [from_config, hic, if_pos h1, if_pos h2', if_pos h3,
      if_pos (h4 l hic)]

/-- C3: under valid construction, if the supplied lengths do not sum to
exactly 1 (but are within tolerance), the last stored length is rewritten
to 1 minus the sum of the preceding lengths, making the stored sum
exactly 1; if they already sum to exactly 1, the stored lengths are the
supplied ones unchanged. -/
theorem lengths_renormalized (build : SchedConfig → ℚ → ℚ)
    (config : CompositeConfig)
    (h1 : config.schedulers.length = config.lengths.length)
    (h2 : config.schedulers ≠ [])
    (h3 : |config.lengths.sum - 1| < 1/1000)
    (h4 : ∀ l, config.interval_scaling = some l →
      config.schedulers.length = l.length) :
    ∃ pc comp, from_config build config = Except.ok (pc, comp) ∧
      comp.lengths.sum = 1 ∧
      (config.lengths.sum = 1 → comp.lengths = config.lengths) ∧
      (config.lengths.sum ≠ 1 → comp.lengths =
        config.lengths.dropLast ++ [1 - config.lengths.dropLast.sum]) := by
  have hok := from_config_ok_aux build config h1 h2 h3 h4
  refine ⟨_, _, by rw [hok], ?_, ?_, ?_⟩
  · dsimp only [fromConfigFinish]
    by_cases hs : config.lengths.sum = 1
    · rw [if_pos hs]; exact hs
    · rw [if_neg hs]; simp [List.sum_append]
  · intro hs
    dsimp only [fromConfigFinish]
    rw [if_pos hs]
  · intro hs
    dsimp only [fromConfigFinish]
    rw [if_neg hs]

/-- Witness for C3: scenario D — lengths [0.3, 0.7001] (deviation 1e-4,
within tolerance): construction succeeds and the stored lengths are
[0.3, 1 - 0.3] = [0.3, 0.7], summing to exactly 1. -/
theorem lengths_renormalized_witness :
    ∃ pc comp, from_config build0 cfgD = Except.ok (pc, comp) ∧
      comp.lengths.sum = 1 ∧
      (cfgD.lengths.sum = 1 → comp.lengths = cfgD.lengths) ∧
      (cfgD.lengths.sum ≠ 1 → comp.lengths =
        cfgD.lengths.dropLast ++ [1 - cfgD.lengths.dropLast.sum]) :=
  lengths_renormalized build0 cfgD rfl (by simp [cfgD])
    (by norm_num [cfgD, abs_lt])
    (by intro l hl; simp [cfgD] at hl)

/-- C2: `from_config` fails with a ConfigurationError exactly when the
scheduler and length lists differ in length, the scheduler list is
empty, the sum of the supplied lengths deviates from 1 by more than
1e-3, or a supplied scaling-mode list differs in length from the
scheduler list; on failure no instance is produced (the result is the
error, not an instance). The hypothesis `hfp` excludes the single
deviation value exactly 1e-3: it is an artifact of the exact-rational
model, unreachable in the program — the source compares with a strict
`abs(sum - 1.0) < 1e-3` on IEEE-754 doubles, and the double nearest
1e-3 is not an integer multiple of 2^-53 whereas the deviation of any
double sum from 1.0 in the tolerance's vicinity is, so no program input
makes the deviation equal the tolerance and the strict check coincides
with "more than 1e-3" there. -/
theorem from_config_error_iff (build : SchedConfig → ℚ → ℚ)
    (config : CompositeConfig)
    (hfp : |config.lengths.sum - 1| ≠ 1/1000) :
    from_config build config = Except.error ConfigurationError.mk ↔
      config.schedulers.length ≠ config.lengths.length ∨
      config.schedulers = [] ∨
      1/1000 < |config.lengths.sum - 1| ∨
      (∃ l, config.interval_scaling = some l ∧
        config.schedulers.length ≠ l.length) := by
  rcases hic : config.interval_scaling with _ | l
  · simp only [from_config, hic]
    split_ifs with h1 h2 h3
    · refine iff_of_false (by simp) ?_
      rintro (h | h | h | ⟨l, hl, _⟩)
      · exact h h1
      · rw [h] at h2; simp at h2
      · exact absurd h (not_lt.mpr h3.le)
      · simp at hl
    · exact iff_of_true rfl (Or.inr (Or.inr (Or.inl (lt_of_le_of_ne (not_lt.mp h3) (Ne.symm hfp)))))
    · refine iff_of_true rfl (Or.inr (Or.inl ?_))
      exact List.length_eq_zero.mp (by omega)
    · exact iff_of_true rfl (Or.inl h1)
  · simp only [from_config, hic]
    split_ifs with h1 h2 h3 h4
    · refine iff_of_false (by simp) ?_
      rintro (h | h | h | ⟨l2, hl2, hne2⟩)
      · exact h h1
      · rw [h] at h2; simp at h2
      · exact absurd h (not_lt.mpr h3.le)
      · cases hl2; exact hne2 h4
    · exact iff_of_true rfl (Or.inr (Or.inr (Or.inr ⟨l, rfl, h4⟩)))
    · exact iff_of_true rfl (Or.inr (Or.inr (Or.inl (lt_of_le_of_ne (not_lt.mp h3) (Ne.symm hfp)))))
    · refine iff_of_true rfl (Or.inr (Or.inl ?_))
      exact List.length_eq_zero.mp (by omega)
    · exact iff_of_true rfl (Or.inl h1)

/-- C10: under valid construction with an inexact length sum and a
`num_epochs` key present, `from_config` hands back a post-state of the
caller's configuration in which the last length has been overwritten and
every sub-scheduler configuration has been replaced by one carrying the
propagated `num_epochs`; the post-state differs from the configuration
that was passed in. -/
theorem from_config_mutates (build : SchedConfig → ℚ → ℚ)
    (config : CompositeConfig) (E : ℚ)
    (h1 : config.schedulers.length = config.lengths.length)
    (h2 : config.schedulers ≠ [])
    (h3 : |config.lengths.sum - 1| < 1/1000)
    (h4 : ∀ l, config.interval_scaling = some l →
      config.schedulers.length = l.length)
    (hs : config.lengths.sum ≠ 1)
    (hE : config.num_epochs = some E) :
    ∃ pc comp, from_config build config = Except.ok (pc, comp) ∧
      pc.lengths = config.lengths.dropLast ++ [1 - config.lengths.dropLast.sum] ∧
      pc.schedulers = config.schedulers.map
        (fun sc => { sc with num_epochs := some E }) ∧
      pc ≠ config := by
  have hok := from_config_ok_aux build config h1 h2 h3 h4
  refine ⟨_, _, by rw [hok], ?_, ?_, ?_⟩
  · dsimp only [fromConfigFinish]
    rw [if_neg hs]
  · dsimp only [fromConfigFinish]
    rw [hE]
  · intro heq
    have hlens : (fromConfigFinish build config
        (if config.lengths.sum = 1 then config.lengths
          else config.lengths.dropLast ++ [1 - config.lengths.dropLast.sum])
        (match config.update_interval with
          | none => UpdateInterval.STEP
          | some u => u)
        (match config.interval_scaling with
          | some l => l
          | none => List.replicate config.schedulers.length
              IntervalScaling.RESCALED)).1.lengths = config.lengths := by
      rw [heq]
    dsimp only [fromConfigFinish] at hlens
    rw [if_neg hs] at hlens
    have : config.lengths.sum = 1 := by
      rw [← hlens]
      simp [List.sum_append]
    exact hs this

/-- Witness for C10: on `cfgMut` (lengths [0.3, 0.7001], `num_epochs`
present) construction succeeds and the returned configuration state has
its last length overwritten with 0.7 and its sub-scheduler configurations
rewritten with `num_epochs = 8`; it differs from the supplied
configuration. -/
theorem from_config_mutates_witness :
    ∃ pc comp, from_config build0 cfgMut = Except.ok (pc, comp) ∧
      pc.lengths = cfgMut.lengths.dropLast ++ [1 - cfgMut.lengths.dropLast.sum] ∧
      pc.schedulers = cfgMut.schedulers.map
        (fun sc => { sc with num_epochs := some 8 }) ∧
      pc ≠ cfgMut :=
  from_config_mutates build0 cfgMut 8 rfl (by simp [cfgMut])
    (by norm_num [cfgMut, abs_lt]) (by intro l hl; simp [cfgMut] at hl)
    (by norm_num [cfgMut]) rfl

/-- An empty configuration: no schedulers and no lengths. -/
def cfgEmpty : CompositeConfig := ⟨[], [], none, none, none⟩

/-- Witness for C2: construction from the empty scheduler list (whose
length-sum deviation is 1, not the excluded boundary value 1e-3) fails
with a ConfigurationError. -/
theorem from_config_error_iff_witness :
    from_config build0 cfgEmpty = Except.error ConfigurationError.mk :=
  (from_config_error_iff build0 cfgEmpty
    (by
      have hv : (cfgEmpty.lengths.sum - 1 : ℚ) = -1 := by norm_num [cfgEmpty]
      rw [hv, abs_neg, abs_one]
      norm_num)).mpr (Or.inr (Or.inl rfl))

/-- Witness for C7: the pure-evaluation properties instantiated on a
concrete composite and progress value. -/
theorem call_pure_witness :
    (exStep.callST (1/2)).2.schedulers = exStep.schedulers ∧
    (exStep.callST (1/2)).2.lengths = exStep.lengths ∧
    (exStep.callST (1/2)).2.interval_scaling = exStep.interval_scaling ∧
    (exStep.callST (1/2)).2.update_interval = exStep.update_interval ∧
    (exStep.callST (1/2)).1 = exStep.call (1/2) ∧
    ((exStep.callST (1/2)).2.callST (1/2)).1 = (exStep.callST (1/2)).1 :=
  call_pure exStep (1/2)
